import Mathlib

/-!
# FastDynamicCast: the offset-caching conversion of `fast_dynamic_cast.h`

A shallow embedding of the function family in `src/fast_dynamic_cast.h`.

* Pointers are addresses (`Nat`, `0` is `nullptr`); `ptrdiff_t` values are `Int`.
  Pointer arithmetic wraps at the pointer width of the build (`Config.bits`).
* The two function-local statics `offset` and `src_vtable_ptr` of one template
  instantiation form a `Slot`, passed in and out explicitly.
* What the header takes from the C++ runtime (the word stored at `[ptr + 0]`
  and the built-in `dynamic_cast<_To>`) is a parameter, `Runtime`.
* Every call also returns the list of the source-level actions it performed
  (`Event`), in program order, so that "does not invoke the full conversion"
  is a statement about the call.
-/

namespace fast_dcast

/-! ## Build configuration -/

/-- Build configuration: `win64` is the preprocessor symbol `_WIN64`. -/
structure Config where
  win64 : Bool
  deriving DecidableEq, Repr

/-- Width in bits of a pointer and of `ptrdiff_t` in this build. -/
def Config.bits (cfg : Config) : Nat := if cfg.win64 then 64 else 32

/-- Number of distinct pointer values, `2 ^ bits`. -/
def Config.modulus (cfg : Config) : Nat := 2 ^ cfg.bits

/-- The macro `DCAST_NO_OFFSET`:
`0x7FFFFFFFFFFFFFFFLL` under `_WIN64`, `0x7FFFFFFLL` otherwise. -/
def DCAST_NO_OFFSET (cfg : Config) : Int :=
  if cfg.win64 then 0x7FFFFFFFFFFFFFFF else 0x7FFFFFF

/-! ## Machine arithmetic on pointers -/

/-- The expression `reinterpret_cast<char*>(ptr) + offset`. -/
def ptr_add (cfg : Config) (ptr : Nat) (offset : Int) : Nat :=
  (((ptr : Int) + offset) % (cfg.modulus : Int)).toNat

/-- The expression
`reinterpret_cast<const char*>(result) - reinterpret_cast<const char*>(ptr)`,
a `ptrdiff_t`. -/
def ptr_diff (cfg : Config) (result ptr : Nat) : Int :=
  Int.bmod ((result : Int) - (ptr : Int)) cfg.modulus

/-- The value `d` is representable as a `ptrdiff_t` of this build. -/
def PtrdiffFits (cfg : Config) (d : Int) : Prop :=
  -((cfg.modulus : Int) / 2) ≤ d ∧ d < (cfg.modulus : Int) / 2

instance (cfg : Config) (d : Int) : Decidable (PtrdiffFits cfg d) :=
  inferInstanceAs (Decidable (-((cfg.modulus : Int) / 2) ≤ d ∧ d < (cfg.modulus : Int) / 2))

/-! ## The C++ runtime seen by the header -/

/-- What the header reads from the running program for one target type `_To`:
`load p` is the `uintptr_t` stored at address `p`, and `dynamic_cast p` is the
built-in `dynamic_cast<_To>(p)` (`0` for `nullptr`). -/
structure Runtime where
  load : Nat → Nat
  dynamic_cast : Nat → Nat

/-- The function `get_vtable`: the `__vftable` pointer is at `[ptr + 0]`. -/
def get_vtable (rt : Runtime) (ptr : Nat) : Nat := rt.load ptr

/-! ## Cache slot and observable actions -/

/-- The statics of one instantiation of the pointer form:
`static ptrdiff_t offset` and `static v_table_ptr src_vtable_ptr`. -/
structure Slot where
  offset : Int
  src_vtable_ptr : Nat
  deriving DecidableEq, Repr

/-- Initial value of the statics: `offset = DCAST_NO_OFFSET`, and
`src_vtable_ptr` zero-initialised. -/
def Slot.initial (cfg : Config) : Slot :=
  { offset := DCAST_NO_OFFSET cfg, src_vtable_ptr := 0 }

/-- A slot is Empty when its offset is the sentinel. -/
def Slot.Empty (cfg : Config) (s : Slot) : Prop := s.offset = DCAST_NO_OFFSET cfg

/-- A slot is Populated when its offset is not the sentinel. -/
def Slot.Populated (cfg : Config) (s : Slot) : Prop := s.offset ≠ DCAST_NO_OFFSET cfg

instance (cfg : Config) (s : Slot) : Decidable (s.Empty cfg) :=
  inferInstanceAs (Decidable (s.offset = DCAST_NO_OFFSET cfg))

instance (cfg : Config) (s : Slot) : Decidable (s.Populated cfg) :=
  inferInstanceAs (Decidable (s.offset ≠ DCAST_NO_OFFSET cfg))

/-- Source-level actions of a call, recorded in program order. -/
inductive Event where
  /-- The call `get_vtable(ptr)`: the object's identity token is read. -/
  | read_vtable (ptr : Nat)
  /-- The static `offset` is read. -/
  | load_offset
  /-- The static `src_vtable_ptr` is read. -/
  | load_src_vtable_ptr
  /-- The full conversion `dynamic_cast<_To>(ptr)` is invoked. -/
  | full_cast (ptr : Nat)
  /-- The static `src_vtable_ptr` is written. -/
  | store_src_vtable_ptr (v : Nat)
  /-- The static `offset` is written. -/
  | store_offset (d : Int)
  /-- The statement `throw std::bad_cast {}`. -/
  | throw_bad_cast
  deriving DecidableEq, Repr

/-- Result of a call: the returned value, the slot after the call, and the
actions performed. -/
structure Outcome (α : Type) where
  value : α
  slot : Slot
  trace : List Event

/-- Actions of evaluating `offset != DCAST_NO_OFFSET && src_vtable_ptr == this_vtable`:
the right operand is evaluated only when the left one holds. -/
def cond_trace (cfg : Config) (slot : Slot) : List Event :=
  if slot.offset ≠ DCAST_NO_OFFSET cfg then
    [Event.load_offset, Event.load_src_vtable_ptr]
  else
    [Event.load_offset]

/-! ## The conversion functions -/

/-- Pointer form, `_To fast_dynamic_cast(_From* ptr)`. -/
def fast_dynamic_cast (cfg : Config) (rt : Runtime) (slot : Slot) (ptr : Nat) :
    Outcome Nat :=
  if ptr = 0 then
    { value := 0, slot := slot, trace := [] }
  else
    let this_vtable := get_vtable rt ptr
    if slot.offset ≠ DCAST_NO_OFFSET cfg ∧ slot.src_vtable_ptr = this_vtable then
      let new_ptr := ptr_add cfg ptr slot.offset
      { value := new_ptr, slot := slot,
        trace := Event.read_vtable ptr :: cond_trace cfg slot ++ [Event.load_offset] }
    else
      let result := rt.dynamic_cast ptr
      if result = 0 then
        { value := 0, slot := slot,
          trace := Event.read_vtable ptr :: cond_trace cfg slot ++ [Event.full_cast ptr] }
      else
        let offset := ptr_diff cfg result ptr
        { value := result,
          slot := { offset := offset, src_vtable_ptr := this_vtable },
          trace := Event.read_vtable ptr :: cond_trace cfg slot ++
            [Event.full_cast ptr, Event.store_src_vtable_ptr this_vtable,
             Event.store_offset offset] }

/-- Const-pointer form, `const _To fast_dynamic_cast(const _From* ptr)`:
the two `const_cast`s do not change the address. -/
def fast_dynamic_cast_const (cfg : Config) (rt : Runtime) (slot : Slot) (ptr : Nat) :
    Outcome Nat :=
  let nonconst_ptr := ptr
  let casted_ptr := fast_dynamic_cast cfg rt slot nonconst_ptr
  casted_ptr

/-- The exception type `std::bad_cast`. -/
inductive bad_cast where
  | mk
  deriving DecidableEq, Repr

/-- Reference form, `_To fast_dynamic_cast(_From& ref)`; `ref` is the address
of the referenced object and the result is the address the returned reference
is bound to. -/
def fast_dynamic_cast_ref (cfg : Config) (rt : Runtime) (slot : Slot) (ref : Nat) :
    Outcome (Except bad_cast Nat) :=
  let casted_ptr := fast_dynamic_cast cfg rt slot ref
  if casted_ptr.value = 0 then
    { value := Except.error bad_cast.mk, slot := casted_ptr.slot,
      trace := casted_ptr.trace ++ [Event.throw_bad_cast] }
  else
    { value := Except.ok casted_ptr.value, slot := casted_ptr.slot,
      trace := casted_ptr.trace }

/-- Const-reference form, `_To fast_dynamic_cast(const _From& ref)`. -/
def fast_dynamic_cast_cref (cfg : Config) (rt : Runtime) (slot : Slot) (ref : Nat) :
    Outcome (Except bad_cast Nat) :=
  let casted_ptr := fast_dynamic_cast cfg rt slot ref
  if casted_ptr.value = 0 then
    { value := Except.error bad_cast.mk, slot := casted_ptr.slot,
      trace := casted_ptr.trace ++ [Event.throw_bad_cast] }
  else
    { value := Except.ok casted_ptr.value, slot := casted_ptr.slot,
      trace := casted_ptr.trace }

/-- A `std::shared_ptr`: the control block it co-owns (`0` when it owns
nothing) and the stored raw pointer, which `get()` returns. -/
structure shared_ptr where
  ctrl : Nat
  stored : Nat
  deriving DecidableEq, Repr

/-- The member `get()`. -/
def shared_ptr.get (p : shared_ptr) : Nat := p.stored

/-- The member `use_count()`, given the use count of every control block. -/
def shared_ptr.use_count (counts : Nat → Nat) (p : shared_ptr) : Nat :=
  if p.ctrl = 0 then 0 else counts p.ctrl

/-- The aliasing constructor `shared_ptr<_To>(const shared_ptr<_From>& r, _To* p)`
of the standard library: the new pointer co-owns the control block of `r` (whose use count
goes up by one) and stores `p`. -/
def shared_ptr.aliasing (counts : Nat → Nat) (r : shared_ptr) (p : Nat) :
    shared_ptr × (Nat → Nat) :=
  ({ ctrl := r.ctrl, stored := p },
   fun c => if c = r.ctrl ∧ r.ctrl ≠ 0 then counts c + 1 else counts c)

/-- Result of the shared-pointer form: an `Outcome` together with the argument
and the use counts after the call. -/
structure SharedOutcome where
  value : shared_ptr
  slot : Slot
  trace : List Event
  arg : shared_ptr
  counts : Nat → Nat

/-- Shared-pointer form,
`std::shared_ptr<_To> fast_dynamic_pointer_cast(const std::shared_ptr<_From>& ptr)`.
The argument is a const reference that is only read (`get()`, and copied from
by the aliasing constructor, without `std::move`). -/
def fast_dynamic_pointer_cast (cfg : Config) (rt : Runtime) (slot : Slot)
    (counts : Nat → Nat) (ptr : shared_ptr) : SharedOutcome :=
  let casted := fast_dynamic_cast cfg rt slot ptr.get
  let made := shared_ptr.aliasing counts ptr casted.value
  { value := made.1, slot := casted.slot, trace := casted.trace, arg := ptr,
    counts := made.2 }

/-! ## Sequences of calls on one slot -/

/-- One call: the runtime state at the time of the call and the argument. -/
structure Call where
  rt : Runtime
  ptr : Nat

/-- The identity token the call reads from its object. -/
def Call.token (c : Call) : Nat := get_vtable c.rt c.ptr

/-- The result of the full conversion `dynamic_cast<_To>` on the call's argument. -/
def Call.full (c : Call) : Nat := c.rt.dynamic_cast c.ptr

/-- Facts the C++ language gives about `dynamic_cast<_To>(ptr)`: argument and
result are pointer values of the build, and a null argument gives a null
result. -/
def Call.Valid (cfg : Config) (c : Call) : Prop :=
  c.ptr < cfg.modulus ∧ c.full < cfg.modulus ∧ (c.ptr = 0 → c.full = 0)

instance (cfg : Config) (c : Call) : Decidable (c.Valid cfg) :=
  inferInstanceAs (Decidable (c.ptr < cfg.modulus ∧ c.full < cfg.modulus ∧
    (c.ptr = 0 → c.full = 0)))

/-- Pointer-form calls made one after the other on the same slot: the outcome
of every call, in order. -/
def outcomes (cfg : Config) (slot : Slot) : List Call → List (Outcome Nat)
  | [] => []
  | c :: cs =>
    let o := fast_dynamic_cast cfg c.rt slot c.ptr
    o :: outcomes cfg o.slot cs

/-- The slot after a sequence of pointer-form calls. -/
def final_slot (cfg : Config) (slot : Slot) : List Call → Slot
  | [] => slot
  | c :: cs => final_slot cfg (fast_dynamic_cast cfg c.rt slot c.ptr).slot cs

/-- Reference-form calls made one after the other on the same slot (a caller
that catches `std::bad_cast` and goes on). -/
def outcomes_ref (cfg : Config) (slot : Slot) :
    List Call → List (Outcome (Except bad_cast Nat))
  | [] => []
  | c :: cs =>
    let o := fast_dynamic_cast_ref cfg c.rt slot c.ptr
    o :: outcomes_ref cfg o.slot cs

/-- The identity token is a one-to-one proxy for the concrete type, over the
objects of `calls`: two objects with equal tokens have the same
`dynamic_cast` outcome and, when it succeeds, the same result-minus-input
offset. -/
def TokenFaithful (calls : List Call) : Prop :=
  ∀ a ∈ calls, ∀ b ∈ calls, a.ptr ≠ 0 → b.ptr ≠ 0 → a.token = b.token →
    (a.full = 0 ↔ b.full = 0) ∧
    (a.full ≠ 0 → b.full ≠ 0 →
      (a.full : Int) - (a.ptr : Int) = (b.full : Int) - (b.ptr : Int))

instance (calls : List Call) : Decidable (TokenFaithful calls) :=
  inferInstanceAs (Decidable (∀ a ∈ calls, ∀ b ∈ calls, a.ptr ≠ 0 → b.ptr ≠ 0 →
    a.token = b.token →
    (a.full = 0 ↔ b.full = 0) ∧
    (a.full ≠ 0 → b.full ≠ 0 →
      (a.full : Int) - (a.ptr : Int) = (b.full : Int) - (b.ptr : Int))))

/-- Cache coherence of a slot with respect to the objects of `calls`: a
populated slot holds the token and the machine offset of some object of
`calls` whose full conversion succeeds. -/
def Coherent (cfg : Config) (calls : List Call) (s : Slot) : Prop :=
  s.offset ≠ DCAST_NO_OFFSET cfg →
    ∃ a ∈ calls, a.ptr ≠ 0 ∧ a.full ≠ 0 ∧ a.token = s.src_vtable_ptr ∧
      s.offset = ptr_diff cfg a.full a.ptr

/-- The 64-bit build (`_WIN64` defined). -/
def cfg64 : Config := { win64 := true }

/-- The 32-bit build. -/
def cfg32 : Config := { win64 := false }

/-- Memory and `dynamic_cast<G*>` of the concrete program state. -/
def demo_rt : Runtime :=
  { load := fun p =>
      if p = 4040 then 9000 else if p = 1000 then 7000 else if p = 5048 then 9500 else 0,
    dynamic_cast := fun p =>
      if p = 4040 then 4000 else if p = 5048 then 5000 else 0 }

/-- The slot after a successful conversion of the `G` object. -/
def demo_warm : Slot := { offset := -40, src_vtable_ptr := 9000 }

/-- A call sequence with a cold call, a null input, a failing input, a warm
call and a change of concrete type. -/
def demo_calls : List Call :=
  [{ rt := demo_rt, ptr := 4040 }, { rt := demo_rt, ptr := 0 },
   { rt := demo_rt, ptr := 1000 }, { rt := demo_rt, ptr := 4040 },
   { rt := demo_rt, ptr := 5048 }, { rt := demo_rt, ptr := 4040 }]

/-- The loop of "Fast dynamic cast complex": the same conversion of a `G`
object through its `A` sub-object, several times in a row. -/
def bench_calls : List Call := List.replicate 4 { rt := demo_rt, ptr := 4040 }

/-- A shared pointer that owns the `G` object through control block 77 and
stores the address of its `A` sub-object. -/
def demo_shared : shared_ptr := { ctrl := 77, stored := 4040 }

/-- Use counts of the concrete program state: control block 77 has one owner. -/
def demo_counts : Nat → Nat := fun c => if c = 77 then 1 else 0

/-- A sequence that alternates the `G` object (token 9000) and the object of
the derived type (token 9500). -/
def alt_calls : List Call :=
  [{ rt := demo_rt, ptr := 4040 }, { rt := demo_rt, ptr := 5048 },
   { rt := demo_rt, ptr := 4040 }, { rt := demo_rt, ptr := 5048 }]

/-! ## Objects and the sentinel -/

/-- The addresses `ptr` and `result` lie inside one complete object of `size`
bytes that starts at `base`. -/
def SameObject (base size ptr result : Nat) : Prop :=
  base ≤ ptr ∧ ptr < base + size ∧ base ≤ result ∧ result < base + size

instance (base size ptr result : Nat) : Decidable (SameObject base size ptr result) :=
  inferInstanceAs (Decidable (base ≤ ptr ∧ ptr < base + size ∧ base ≤ result ∧
    result < base + size))

/-- A program state of the 32-bit build: a complete object of `0x8000000`
bytes at address 4096, whose source sub-object is at 4096 (token 9000) and
whose target sub-object lies `0x7FFFFFF` bytes further. -/
def big_rt : Runtime :=
  { load := fun p => if p = 4096 then 9000 else 0,
    dynamic_cast := fun p => if p = 4096 then 4096 + 0x7FFFFFF else 0 }

/-- The conversion of the object of `big_rt`, three times in a row. -/
def big_calls : List Call := List.replicate 3 { rt := big_rt, ptr := 4096 }

/-- A program state in which two objects carry the same token 9000 although
their conversions differ: the object at 4040 converts with offset -40, the
object at 6000 with offset -16, and the object at 8000 does not convert. -/
def collide_rt : Runtime :=
  { load := fun p =>
      if p = 4040 then 9000 else if p = 6000 then 9000 else if p = 8000 then 9000 else 0,
    dynamic_cast := fun p =>
      if p = 4040 then 4000 else if p = 6000 then 5984 else 0 }

/-! ## The fallback for shared pointers -/

/-- The default constructor `shared_ptr<_To>()`: owns nothing and stores null. -/
def shared_ptr.empty : shared_ptr := { ctrl := 0, stored := 0 }

/-- The standard library's `std::dynamic_pointer_cast<_To>(r)`, which the name
`fast_dynamic_pointer_cast` stands for when the fast path is disabled: the
aliasing constructor on `dynamic_cast<_To*>(r.get())` when that is not null,
the empty shared pointer otherwise. -/
def dynamic_pointer_cast (rt : Runtime) (counts : Nat → Nat) (r : shared_ptr) :
    shared_ptr × (Nat → Nat) :=
  let p := rt.dynamic_cast r.get
  if p = 0 then (shared_ptr.empty, counts) else shared_ptr.aliasing counts r p

/-! ## Arithmetic lemmas -/

theorem modulus_pos (cfg : Config) : 0 < cfg.modulus := by
  unfold Config.modulus; positivity

/-- Adding the machine distance from `p` to `r` back to `p` gives `r`. -/
theorem ptr_add_ptr_diff (cfg : Config) (r p : Nat) :
    ptr_add cfg p (ptr_diff cfg r p) = r % cfg.modulus := by
  unfold ptr_add ptr_diff
  have h : ((p : Int) + Int.bmod ((r : Int) - p) cfg.modulus) % (cfg.modulus : Int)
      = (r : Int) % (cfg.modulus : Int) := by
    rw [Int.add_emod, Int.bmod_emod, ← Int.add_emod]
    congr 1; ring
  rw [h, ← Int.natCast_mod, Int.toNat_natCast]

theorem ptr_add_ptr_diff_of_lt (cfg : Config) (r p : Nat) (h : r < cfg.modulus) :
    ptr_add cfg p (ptr_diff cfg r p) = r := by
  rw [ptr_add_ptr_diff, Nat.mod_eq_of_lt h]

/-- A distance that fits a `ptrdiff_t` is computed exactly. -/
theorem ptr_diff_of_fits (cfg : Config) (r p : Nat)
    (h : PtrdiffFits cfg ((r : Int) - (p : Int))) :
    ptr_diff cfg r p = (r : Int) - (p : Int) := by
  unfold ptr_diff
  unfold PtrdiffFits at h
  generalize ((r : Int) - (p : Int)) = d at h
  rcases cfg with ⟨_ | _⟩ <;>
    simp only [Config.modulus, Config.bits, Bool.false_eq_true, if_false, if_true] at h ⊢ <;>
    norm_num at h ⊢ <;>
    rw [Int.bmod_def] <;> norm_num <;> omega

/-- Pointer addition is exact when the sum is a pointer value. -/
theorem ptr_add_exact (cfg : Config) (p : Nat) (d : Int) (h0 : 0 ≤ (p : Int) + d)
    (h1 : (p : Int) + d < (cfg.modulus : Int)) :
    ((ptr_add cfg p d : Nat) : Int) = (p : Int) + d := by
  unfold ptr_add
  rw [Int.emod_eq_of_lt h0 h1, Int.toNat_of_nonneg h0]

/-- The sentinel is a `ptrdiff_t` of its build. -/
theorem sentinel_fits (cfg : Config) : PtrdiffFits cfg (DCAST_NO_OFFSET cfg) := by
  unfold PtrdiffFits DCAST_NO_OFFSET Config.modulus Config.bits
  rcases cfg with ⟨_ | _⟩ <;> simp

/-- Two addresses inside one complete object that is at most `DCAST_NO_OFFSET`
bytes long are never at the sentinel distance. -/
theorem ptr_diff_ne_sentinel_of_same_object (cfg : Config) (base size ptr result : Nat)
    (hobj : SameObject base size ptr result) (hsize : (size : Int) ≤ DCAST_NO_OFFSET cfg) :
    ptr_diff cfg result ptr ≠ DCAST_NO_OFFSET cfg := by
  obtain ⟨h1, h2, h3, h4⟩ := hobj
  have hs := sentinel_fits cfg
  have hfit : PtrdiffFits cfg ((result : Int) - (ptr : Int)) := by
    unfold PtrdiffFits at hs ⊢
    constructor <;> omega
  rw [ptr_diff_of_fits cfg result ptr hfit]
  omega

/-- Machine distances agree when the exact distances agree. -/
theorem ptr_diff_congr (cfg : Config) (r p r2 p2 : Nat)
    (h : (r : Int) - (p : Int) = (r2 : Int) - (p2 : Int)) :
    ptr_diff cfg r p = ptr_diff cfg r2 p2 := by
  unfold ptr_diff; rw [h]

/-! ## One call of the pointer form, branch by branch -/

theorem fast_dynamic_cast_null (cfg : Config) (rt : Runtime) (s : Slot) :
    fast_dynamic_cast cfg rt s 0 = { value := 0, slot := s, trace := [] } := by
  simp [fast_dynamic_cast]

theorem fast_dynamic_cast_hit (cfg : Config) (rt : Runtime) (s : Slot) (ptr : Nat)
    (hptr : ptr ≠ 0) (hpop : s.offset ≠ DCAST_NO_OFFSET cfg)
    (htok : s.src_vtable_ptr = get_vtable rt ptr) :
    fast_dynamic_cast cfg rt s ptr =
      { value := ptr_add cfg ptr s.offset, slot := s,
        trace := [Event.read_vtable ptr, Event.load_offset, Event.load_src_vtable_ptr,
                  Event.load_offset] } := by
  simp [fast_dynamic_cast, cond_trace, hptr, hpop, htok]

theorem fast_dynamic_cast_miss_null (cfg : Config) (rt : Runtime) (s : Slot) (ptr : Nat)
    (hptr : ptr ≠ 0)
    (hmiss : ¬ (s.offset ≠ DCAST_NO_OFFSET cfg ∧ s.src_vtable_ptr = get_vtable rt ptr))
    (hfail : rt.dynamic_cast ptr = 0) :
    fast_dynamic_cast cfg rt s ptr =
      { value := 0, slot := s,
        trace := Event.read_vtable ptr :: cond_trace cfg s ++ [Event.full_cast ptr] } := by
  unfold fast_dynamic_cast
  rw [if_neg hptr]
  simp only []
  rw [if_neg hmiss, if_pos hfail]

theorem fast_dynamic_cast_miss_found (cfg : Config) (rt : Runtime) (s : Slot) (ptr : Nat)
    (hptr : ptr ≠ 0)
    (hmiss : ¬ (s.offset ≠ DCAST_NO_OFFSET cfg ∧ s.src_vtable_ptr = get_vtable rt ptr))
    (hok : rt.dynamic_cast ptr ≠ 0) :
    fast_dynamic_cast cfg rt s ptr =
      { value := rt.dynamic_cast ptr,
        slot := { offset := ptr_diff cfg (rt.dynamic_cast ptr) ptr,
                  src_vtable_ptr := get_vtable rt ptr },
        trace := Event.read_vtable ptr :: cond_trace cfg s ++
          [Event.full_cast ptr, Event.store_src_vtable_ptr (get_vtable rt ptr),
           Event.store_offset (ptr_diff cfg (rt.dynamic_cast ptr) ptr)] } := by
  unfold fast_dynamic_cast
  rw [if_neg hptr]
  simp only []
  rw [if_neg hmiss, if_neg hok]

/-- The actions of evaluating the hit condition contain no full conversion. -/
theorem full_cast_not_mem_cond_trace (cfg : Config) (s : Slot) (q : Nat) :
    Event.full_cast q ∉ cond_trace cfg s := by
  unfold cond_trace; split <;> simp

/-! ## Coherence is preserved by every call -/

/-- One call from a coherent slot returns what `dynamic_cast` returns and
leaves a coherent slot. -/
theorem step_coherent (cfg : Config) (all : List Call) (hfaith : TokenFaithful all)
    (c : Call) (hc : c ∈ all) (hv : c.Valid cfg) (s : Slot) (hs : Coherent cfg all s) :
    (fast_dynamic_cast cfg c.rt s c.ptr).value = c.full ∧
      Coherent cfg all (fast_dynamic_cast cfg c.rt s c.ptr).slot := by
  obtain ⟨_, hfull_lt, hnull⟩ := hv
  by_cases hptr : c.ptr = 0
  · rw [hptr, fast_dynamic_cast_null]
    exact ⟨(hnull hptr).symm, hs⟩
  · by_cases hhit : s.offset ≠ DCAST_NO_OFFSET cfg ∧ s.src_vtable_ptr = get_vtable c.rt c.ptr
    · obtain ⟨hpop, htok⟩ := hhit
      rw [fast_dynamic_cast_hit cfg c.rt s c.ptr hptr hpop htok]
      refine ⟨?_, hs⟩
      obtain ⟨a, ha, haptr, hafull, hatok, haoff⟩ := hs hpop
      have hab := hfaith a ha c hc haptr hptr (by rw [hatok, htok]; rfl)
      have hcfull : c.full ≠ 0 := fun h => hafull (hab.1.mpr h)
      have hoff : s.offset = ptr_diff cfg c.full c.ptr := by
        rw [haoff]; exact ptr_diff_congr cfg _ _ _ _ (hab.2 hafull hcfull)
      show ptr_add cfg c.ptr s.offset = c.full
      rw [hoff]
      exact ptr_add_ptr_diff_of_lt cfg c.full c.ptr hfull_lt
    · by_cases hfail : c.rt.dynamic_cast c.ptr = 0
      · rw [fast_dynamic_cast_miss_null cfg c.rt s c.ptr hptr hhit hfail]
        exact ⟨hfail.symm, hs⟩
      · rw [fast_dynamic_cast_miss_found cfg c.rt s c.ptr hptr hhit hfail]
        refine ⟨rfl, ?_⟩
        intro _
        exact ⟨c, hc, hptr, hfail, rfl, rfl⟩

/-- The initial slot is coherent: it is Empty. -/
theorem initial_coherent (cfg : Config) (all : List Call) :
    Coherent cfg all (Slot.initial cfg) := by
  intro h; exact absurd rfl h

/-- From a coherent slot, every call of a sequence returns what `dynamic_cast`
returns on its argument. -/
theorem outcomes_coherent (cfg : Config) (all : List Call) (hfaith : TokenFaithful all)
    (hvalid : ∀ c ∈ all, c.Valid cfg) :
    ∀ (calls : List Call) (s : Slot), (∀ c ∈ calls, c ∈ all) → Coherent cfg all s →
      (outcomes cfg s calls).map Outcome.value = calls.map Call.full
  | [], _, _, _ => rfl
  | c :: cs, s, hsub, hs => by
    have hc : c ∈ all := hsub c (List.mem_cons_self c cs)
    obtain ⟨hval, hcoh⟩ := step_coherent cfg all hfaith c hc (hvalid c hc) s hs
    have ih := outcomes_coherent cfg all hfaith hvalid cs
      (fast_dynamic_cast cfg c.rt s c.ptr).slot
      (fun d hd => hsub d (List.mem_cons_of_mem c hd)) hcoh
    simp only [outcomes, List.map_cons, hval, ih]

/-- After a call on a non-null object whose full conversion succeeds, the slot
holds the token of that object, whichever branch was taken. -/
theorem token_after_success (cfg : Config) (rt : Runtime) (s : Slot) (ptr : Nat)
    (hptr : ptr ≠ 0) (hok : rt.dynamic_cast ptr ≠ 0) :
    (fast_dynamic_cast cfg rt s ptr).slot.src_vtable_ptr = get_vtable rt ptr := by
  by_cases hhit : s.offset ≠ DCAST_NO_OFFSET cfg ∧ s.src_vtable_ptr = get_vtable rt ptr
  · rw [fast_dynamic_cast_hit cfg rt s ptr hptr hhit.1 hhit.2]
    exact hhit.2
  · rw [fast_dynamic_cast_miss_found cfg rt s ptr hptr hhit hok]

/-- The pointer form never throws. -/
theorem throw_not_mem_trace (cfg : Config) (rt : Runtime) (s : Slot) (ptr : Nat) :
    Event.throw_bad_cast ∉ (fast_dynamic_cast cfg rt s ptr).trace := by
  unfold fast_dynamic_cast cond_trace
  split
  · simp
  · simp only []
    split <;> [skip; split] <;> split <;> simp

/-- The reference form in terms of the pointer form. -/
theorem fast_dynamic_cast_ref_value (cfg : Config) (rt : Runtime) (s : Slot) (ref : Nat) :
    (fast_dynamic_cast_ref cfg rt s ref).value =
      (if (fast_dynamic_cast cfg rt s ref).value = 0 then Except.error bad_cast.mk
       else Except.ok (fast_dynamic_cast cfg rt s ref).value) ∧
    (fast_dynamic_cast_ref cfg rt s ref).slot = (fast_dynamic_cast cfg rt s ref).slot := by
  unfold fast_dynamic_cast_ref
  by_cases h : (fast_dynamic_cast cfg rt s ref).value = 0 <;> simp [h]

/-- From a coherent slot, every reference-form call of a sequence raises when
`dynamic_cast` gives null and returns the `dynamic_cast` address otherwise. -/
theorem outcomes_ref_coherent (cfg : Config) (all : List Call) (hfaith : TokenFaithful all)
    (hvalid : ∀ c ∈ all, c.Valid cfg) :
    ∀ (calls : List Call) (s : Slot), (∀ c ∈ calls, c ∈ all) → Coherent cfg all s →
      (outcomes_ref cfg s calls).map Outcome.value =
        calls.map (fun c => if c.full = 0 then Except.error bad_cast.mk else Except.ok c.full)
  | [], _, _, _ => rfl
  | c :: cs, s, hsub, hs => by
    have hc : c ∈ all := hsub c (List.mem_cons_self c cs)
    obtain ⟨hval, hcoh⟩ := step_coherent cfg all hfaith c hc (hvalid c hc) s hs
    obtain ⟨hrv, hrs⟩ := fast_dynamic_cast_ref_value cfg c.rt s c.ptr
    rw [← hrs] at hcoh
    have ih := outcomes_ref_coherent cfg all hfaith hvalid cs
      (fast_dynamic_cast_ref cfg c.rt s c.ptr).slot
      (fun d hd => hsub d (List.mem_cons_of_mem c hd)) hcoh
    simp only [outcomes_ref, List.map_cons, ih, hrv, hval]

/-- On a populated slot, calls on non-null objects that carry the stored token
are all hits: each returns its input address plus the stored offset, and the
slot never changes. -/
theorem outcomes_hits (cfg : Config) (s : Slot) (hpop : s.offset ≠ DCAST_NO_OFFSET cfg) :
    ∀ cs : List Call, (∀ d ∈ cs, d.ptr ≠ 0 ∧ d.token = s.src_vtable_ptr) →
      outcomes cfg s cs = cs.map (fun d =>
        { value := ptr_add cfg d.ptr s.offset, slot := s,
          trace := [Event.read_vtable d.ptr, Event.load_offset,
                    Event.load_src_vtable_ptr, Event.load_offset] }) ∧
      final_slot cfg s cs = s
  | [], _ => ⟨rfl, rfl⟩
  | d :: ds, h => by
    obtain ⟨hd, htok⟩ := h d (List.mem_cons_self d ds)
    have hstep := fast_dynamic_cast_hit cfg d.rt s d.ptr hd hpop htok.symm
    have ih := outcomes_hits cfg s hpop ds (fun e he => h e (List.mem_cons_of_mem d he))
    constructor
    · simp only [outcomes, List.map_cons, hstep, ih.1]
    · simp only [final_slot, hstep, ih.2]

/-- A populated slot stays populated over one call, provided the offset of a
successful full conversion is not the sentinel. -/
theorem step_populated (cfg : Config) (s : Slot) (c : Call)
    (hpop : s.offset ≠ DCAST_NO_OFFSET cfg)
    (hreal : c.ptr ≠ 0 → c.full ≠ 0 → ptr_diff cfg c.full c.ptr ≠ DCAST_NO_OFFSET cfg) :
    (fast_dynamic_cast cfg c.rt s c.ptr).slot.offset ≠ DCAST_NO_OFFSET cfg := by
  by_cases hptr : c.ptr = 0
  · rw [hptr, fast_dynamic_cast_null]; exact hpop
  · by_cases hhit : s.offset ≠ DCAST_NO_OFFSET cfg ∧ s.src_vtable_ptr = get_vtable c.rt c.ptr
    · rw [fast_dynamic_cast_hit cfg c.rt s c.ptr hptr hhit.1 hhit.2]; exact hpop
    · by_cases hfail : c.rt.dynamic_cast c.ptr = 0
      · rw [fast_dynamic_cast_miss_null cfg c.rt s c.ptr hptr hhit hfail]; exact hpop
      · rw [fast_dynamic_cast_miss_found cfg c.rt s c.ptr hptr hhit hfail]
        exact hreal hptr hfail

/-- A populated slot stays populated over every sequence of calls whose
successful full conversions have offsets other than the sentinel. -/
theorem final_slot_populated (cfg : Config) :
    ∀ (calls : List Call) (s : Slot), s.offset ≠ DCAST_NO_OFFSET cfg →
      (∀ c ∈ calls, c.ptr ≠ 0 → c.full ≠ 0 →
        ptr_diff cfg c.full c.ptr ≠ DCAST_NO_OFFSET cfg) →
      (final_slot cfg s calls).offset ≠ DCAST_NO_OFFSET cfg
  | [], _, hpop, _ => hpop
  | c :: cs, s, hpop, hreal =>
    final_slot_populated cfg cs (fast_dynamic_cast cfg c.rt s c.ptr).slot
      (step_populated cfg s c hpop (hreal c (List.mem_cons_self c cs)))
      (fun d hd => hreal d (List.mem_cons_of_mem c hd))

/-- Coherence is kept by every sequence of calls. -/
theorem final_slot_coherent (cfg : Config) (all : List Call) (hfaith : TokenFaithful all)
    (hvalid : ∀ c ∈ all, c.Valid cfg) :
    ∀ (calls : List Call) (s : Slot), (∀ c ∈ calls, c ∈ all) → Coherent cfg all s →
      Coherent cfg all (final_slot cfg s calls)
  | [], _, _, hs => hs
  | c :: cs, s, hsub, hs =>
    have hc : c ∈ all := hsub c (List.mem_cons_self c cs)
    final_slot_coherent cfg all hfaith hvalid cs (fast_dynamic_cast cfg c.rt s c.ptr).slot
      (fun d hd => hsub d (List.mem_cons_of_mem c hd))
      (step_coherent cfg all hfaith c hc (hvalid c hc) s hs).2

/-- When no call of a sequence carries the token of the call before it (nor
the first one the token of a populated starting slot), every call invokes the
full conversion; with convertible objects each one overwrites the slot. -/
theorem outcomes_all_miss (cfg : Config) :
    ∀ (calls : List Call) (s : Slot), (∀ c ∈ calls, c.ptr ≠ 0 ∧ c.full ≠ 0) →
      List.Chain' (fun a b : Call => b.token ≠ a.token) calls →
      (∀ c ∈ calls.head?, s.Empty cfg ∨ s.src_vtable_ptr ≠ c.token) →
      List.Forall₂ (fun (c : Call) (o : Outcome Nat) =>
          o.value = c.full ∧ Event.full_cast c.ptr ∈ o.trace ∧
          o.slot = { offset := ptr_diff cfg c.full c.ptr, src_vtable_ptr := c.token })
        calls (outcomes cfg s calls)
  | [], _, _, _, _ => List.Forall₂.nil
  | c :: cs, s, hconv, hchain, hstart => by
    obtain ⟨hptr, hok⟩ := hconv c (List.mem_cons_self c cs)
    have hmiss : ¬ (s.offset ≠ DCAST_NO_OFFSET cfg ∧ s.src_vtable_ptr = get_vtable c.rt c.ptr) := by
      rintro ⟨hpop, htok⟩
      rcases hstart c (by simp) with hempty | hne
      · exact hpop hempty
      · exact hne htok
    have hstep := fast_dynamic_cast_miss_found cfg c.rt s c.ptr hptr hmiss hok
    have ih := outcomes_all_miss cfg cs (fast_dynamic_cast cfg c.rt s c.ptr).slot
      (fun d hd => hconv d (List.mem_cons_of_mem c hd)) (List.Chain'.tail hchain)
      (by
        intro d hd
        right
        rw [hstep]
        exact fun h => (List.Chain'.rel_head? hchain hd) h.symm)
    simp only [outcomes]
    refine List.Forall₂.cons ?_ ih
    rw [hstep]
    exact ⟨rfl, by simp, rfl⟩

/-- On a slot whose offset is the sentinel, calls on non-null objects whose
successful conversions have the sentinel as offset all invoke the full
conversion and return its result, and the offset stays the sentinel. -/
theorem outcomes_sentinel (cfg : Config) :
    ∀ (cs : List Call) (s : Slot), s.offset = DCAST_NO_OFFSET cfg →
      (∀ d ∈ cs, d.ptr ≠ 0 ∧
        (d.full ≠ 0 → ptr_diff cfg d.full d.ptr = DCAST_NO_OFFSET cfg)) →
      List.Forall₂ (fun (d : Call) (o : Outcome Nat) =>
          o.value = d.full ∧ Event.full_cast d.ptr ∈ o.trace ∧ o.slot.Empty cfg)
        cs (outcomes cfg s cs)
  | [], _, _, _ => List.Forall₂.nil
  | d :: ds, s, hs, h => by
    obtain ⟨hptr, hoff⟩ := h d (List.mem_cons_self d ds)
    have hmiss : ¬ (s.offset ≠ DCAST_NO_OFFSET cfg ∧ s.src_vtable_ptr = get_vtable d.rt d.ptr) :=
      fun hh => hh.1 hs
    have hstep : (fast_dynamic_cast cfg d.rt s d.ptr).value = d.full ∧
        Event.full_cast d.ptr ∈ (fast_dynamic_cast cfg d.rt s d.ptr).trace ∧
        (fast_dynamic_cast cfg d.rt s d.ptr).slot.offset = DCAST_NO_OFFSET cfg := by
      by_cases hfail : d.rt.dynamic_cast d.ptr = 0
      · rw [fast_dynamic_cast_miss_null cfg d.rt s d.ptr hptr hmiss hfail]
        exact ⟨hfail.symm, by simp, hs⟩
      · rw [fast_dynamic_cast_miss_found cfg d.rt s d.ptr hptr hmiss hfail]
        exact ⟨rfl, by simp, hoff hfail⟩
    have ih := outcomes_sentinel cfg ds (fast_dynamic_cast cfg d.rt s d.ptr).slot hstep.2.2
      (fun e he => h e (List.mem_cons_of_mem d he))
    simp only [outcomes]
    exact List.Forall₂.cons ⟨hstep.1, hstep.2.1, hstep.2.2⟩ ih

/-- A collision of identity tokens: after a miss on `a` that recorded an offset
other than the sentinel, a non-null object `b` with the token of `a` whose
full conversion fails or has another offset is served by the fast path with
the offset of `a`. -/
theorem collision_hit (cfg : Config) (s0 : Slot) (a b : Call)
    (ha : a.ptr ≠ 0) (haok : a.full ≠ 0)
    (hasent : ptr_diff cfg a.full a.ptr ≠ DCAST_NO_OFFSET cfg)
    (hcold : s0.Empty cfg ∨ s0.src_vtable_ptr ≠ a.token)
    (hb : b.ptr ≠ 0) (htok : b.token = a.token)
    (hdiff : b.full = 0 ∨ (b.full : Int) - (b.ptr : Int) ≠ ptr_diff cfg a.full a.ptr)
    (hpos : 0 < (b.ptr : Int) + ptr_diff cfg a.full a.ptr)
    (hlt : (b.ptr : Int) + ptr_diff cfg a.full a.ptr < (cfg.modulus : Int)) :
    (fast_dynamic_cast cfg b.rt (fast_dynamic_cast cfg a.rt s0 a.ptr).slot b.ptr) =
      { value := ptr_add cfg b.ptr (ptr_diff cfg a.full a.ptr),
        slot := (fast_dynamic_cast cfg a.rt s0 a.ptr).slot,
        trace := [Event.read_vtable b.ptr, Event.load_offset, Event.load_src_vtable_ptr,
                  Event.load_offset] } ∧
    ((ptr_add cfg b.ptr (ptr_diff cfg a.full a.ptr) : Nat) : Int)
      = (b.ptr : Int) + ptr_diff cfg a.full a.ptr ∧
    ptr_add cfg b.ptr (ptr_diff cfg a.full a.ptr) ≠ 0 ∧
    ptr_add cfg b.ptr (ptr_diff cfg a.full a.ptr) ≠ b.full ∧
    (fast_dynamic_cast_ref cfg b.rt (fast_dynamic_cast cfg a.rt s0 a.ptr).slot b.ptr).value
      = Except.ok (ptr_add cfg b.ptr (ptr_diff cfg a.full a.ptr)) := by
  have hmiss : ¬ (s0.offset ≠ DCAST_NO_OFFSET cfg ∧ s0.src_vtable_ptr = get_vtable a.rt a.ptr) := by
    rintro ⟨hpop, h⟩
    rcases hcold with hempty | hne
    · exact hpop hempty
    · exact hne h
  have hfirst := fast_dynamic_cast_miss_found cfg a.rt s0 a.ptr ha hmiss haok
  have hexact := ptr_add_exact cfg b.ptr (ptr_diff cfg a.full a.ptr) (le_of_lt hpos) hlt
  have hnonnull : ptr_add cfg b.ptr (ptr_diff cfg a.full a.ptr) ≠ 0 := by
    intro h
    rw [h] at hexact
    simp only [Nat.cast_zero] at hexact
    omega
  have hsecond : fast_dynamic_cast cfg b.rt (fast_dynamic_cast cfg a.rt s0 a.ptr).slot b.ptr =
      { value := ptr_add cfg b.ptr (ptr_diff cfg a.full a.ptr),
        slot := (fast_dynamic_cast cfg a.rt s0 a.ptr).slot,
        trace := [Event.read_vtable b.ptr, Event.load_offset, Event.load_src_vtable_ptr,
                  Event.load_offset] } := by
    rw [hfirst]
    exact fast_dynamic_cast_hit cfg b.rt _ b.ptr hb hasent htok.symm
  refine ⟨hsecond, hexact, hnonnull, ?_, ?_⟩
  · intro h
    rcases hdiff with h0 | hne
    · exact hnonnull (h.trans h0)
    · apply hne
      rw [h] at hexact
      omega
  · rw [(fast_dynamic_cast_ref_value cfg b.rt _ b.ptr).1, hsecond]
    exact if_neg hnonnull

/-- C1. Equivalence with the full conversion: when the identity token is a
one-to-one proxy for the concrete type over the objects of a call sequence,
every pointer-form call of the sequence, started on the Empty slot, returns
exactly what `dynamic_cast` returns on the same input (null exactly when it
is null, the same address otherwise). -/
theorem C1_equivalence (cfg : Config) (calls : List Call)
    (hvalid : ∀ c ∈ calls, c.Valid cfg) (hfaith : TokenFaithful calls) :
    (outcomes cfg (Slot.initial cfg) calls).map Outcome.value = calls.map Call.full :=
  outcomes_coherent cfg calls hfaith hvalid calls (Slot.initial cfg) (fun _ h => h)
    (initial_coherent cfg calls)

/-- The demonstration sequence is valid and token-faithful, and its calls give
the `dynamic_cast` results one by one. -/
theorem C1_equivalence_witness :
    (∀ c ∈ demo_calls, c.Valid cfg64) ∧ TokenFaithful demo_calls ∧
      (outcomes cfg64 (Slot.initial cfg64) demo_calls).map Outcome.value
        = [4000, 0, 0, 4000, 5000, 4000] :=
  ⟨by decide, by decide, C1_equivalence cfg64 demo_calls (by decide) (by decide)⟩

/-- C2. A failed conversion never poisons the cache: on a slot that is Empty,
or Populated with a token different from the object's, a non-null input whose
`dynamic_cast` is null makes the pointer form return null and leaves the
stored offset and the stored token as they were; in particular this holds on
the slot left by a successful conversion of an object with another token. -/
theorem C2_failed_conversion_keeps_slot (cfg : Config) (rt : Runtime) (s : Slot) (ptr : Nat)
    (hptr : ptr ≠ 0)
    (hslot : s.Empty cfg ∨ (s.Populated cfg ∧ s.src_vtable_ptr ≠ get_vtable rt ptr))
    (hfail : rt.dynamic_cast ptr = 0) :
    (fast_dynamic_cast cfg rt s ptr).value = 0 ∧
    (fast_dynamic_cast cfg rt s ptr).slot.offset = s.offset ∧
    (fast_dynamic_cast cfg rt s ptr).slot.src_vtable_ptr = s.src_vtable_ptr ∧
    (∀ (rtw : Runtime) (pw : Nat) (s0 : Slot), pw ≠ 0 → rtw.dynamic_cast pw ≠ 0 →
      get_vtable rtw pw ≠ get_vtable rt ptr →
      (fast_dynamic_cast cfg rt (fast_dynamic_cast cfg rtw s0 pw).slot ptr).value = 0 ∧
      (fast_dynamic_cast cfg rt (fast_dynamic_cast cfg rtw s0 pw).slot ptr).slot =
        (fast_dynamic_cast cfg rtw s0 pw).slot) := by
  have hmiss : ¬ (s.offset ≠ DCAST_NO_OFFSET cfg ∧ s.src_vtable_ptr = get_vtable rt ptr) := by
    rintro ⟨hpop, htok⟩
    rcases hslot with hempty | ⟨_, hne⟩
    · exact hpop hempty
    · exact hne htok
  rw [fast_dynamic_cast_miss_null cfg rt s ptr hptr hmiss hfail]
  refine ⟨rfl, rfl, rfl, ?_⟩
  intro rtw pw s0 hpw hwok hne
  have htok := token_after_success cfg rtw s0 pw hpw hwok
  have hmiss2 : ¬ ((fast_dynamic_cast cfg rtw s0 pw).slot.offset ≠ DCAST_NO_OFFSET cfg ∧
      (fast_dynamic_cast cfg rtw s0 pw).slot.src_vtable_ptr = get_vtable rt ptr) := by
    rintro ⟨_, h⟩
    exact hne (htok.symm.trans h)
  rw [fast_dynamic_cast_miss_null cfg rt _ ptr hptr hmiss2 hfail]
  exact ⟨rfl, rfl⟩

/-- On the slot warmed by the `G` object, the unrelated object at 1000 gives
null and the slot keeps offset -40 and token 9000. -/
theorem C2_failed_conversion_keeps_slot_witness :
    (fast_dynamic_cast cfg64 demo_rt demo_warm 1000).value = 0 ∧
    (fast_dynamic_cast cfg64 demo_rt demo_warm 1000).slot.offset = -40 ∧
    (fast_dynamic_cast cfg64 demo_rt demo_warm 1000).slot.src_vtable_ptr = 9000 :=
  have h := C2_failed_conversion_keeps_slot cfg64 demo_rt demo_warm 1000
    (by decide) (Or.inr (by decide)) (by decide)
  ⟨h.1, h.2.1, h.2.2.1⟩

/-- C3. Null input short-circuits: on every slot the pointer form applied to a
null pointer returns null, leaves the slot as it was and performs no action at
all (no read of the identity token, no full conversion, no access to the
slot); the outcome does not depend on the program state. -/
theorem C3_null_short_circuit (cfg : Config) (rt : Runtime) (s : Slot) :
    (fast_dynamic_cast cfg rt s 0).value = 0 ∧
    (fast_dynamic_cast cfg rt s 0).slot = s ∧
    (fast_dynamic_cast cfg rt s 0).trace = [] ∧
    (∀ rt2 : Runtime, fast_dynamic_cast cfg rt2 s 0 = fast_dynamic_cast cfg rt s 0) := by
  refine ⟨?_, ?_, ?_, ?_⟩ <;> simp [fast_dynamic_cast_null]

/-- C4. Reference forms raise exactly on failure: on every slot and for every
referenced object, the reference and const-reference forms raise
`std::bad_cast` exactly when the pointer form on the object's address returns
null, otherwise they return the address the pointer form returns, and the
slot ends as the pointer form leaves it. In particular, on a sequence of
objects whose full conversion succeeds (token one-to-one over the sequence),
started on the Empty slot, no call raises: each returns the `dynamic_cast`
address; and a single call that misses (cold slot, or another token) on such
an object does not raise either. -/
theorem C4_reference_forms (cfg : Config) (rt : Runtime) (s : Slot) (ref : Nat) :
    ((fast_dynamic_cast_ref cfg rt s ref).value = Except.error bad_cast.mk ↔
      (fast_dynamic_cast cfg rt s ref).value = 0) ∧
    ((fast_dynamic_cast cfg rt s ref).value ≠ 0 →
      (fast_dynamic_cast_ref cfg rt s ref).value =
        Except.ok (fast_dynamic_cast cfg rt s ref).value) ∧
    (fast_dynamic_cast_ref cfg rt s ref).slot = (fast_dynamic_cast cfg rt s ref).slot ∧
    (Event.throw_bad_cast ∈ (fast_dynamic_cast_ref cfg rt s ref).trace ↔
      (fast_dynamic_cast cfg rt s ref).value = 0) ∧
    fast_dynamic_cast_cref cfg rt s ref = fast_dynamic_cast_ref cfg rt s ref ∧
    (ref ≠ 0 → (s.Empty cfg ∨ s.src_vtable_ptr ≠ get_vtable rt ref) →
      rt.dynamic_cast ref ≠ 0 →
      (fast_dynamic_cast_ref cfg rt s ref).value = Except.ok (rt.dynamic_cast ref)) ∧
    (∀ calls : List Call, (∀ c ∈ calls, c.Valid cfg) → TokenFaithful calls →
      (∀ c ∈ calls, c.full ≠ 0) →
      (outcomes_ref cfg (Slot.initial cfg) calls).map Outcome.value =
        calls.map (fun c => Except.ok c.full)) := by
  obtain ⟨hv, hs⟩ := fast_dynamic_cast_ref_value cfg rt s ref
  refine ⟨?_, ?_, hs, ?_, rfl, ?_, ?_⟩
  · rw [hv]; by_cases h : (fast_dynamic_cast cfg rt s ref).value = 0 <;> simp [h]
  · intro h; rw [hv, if_neg h]
  · unfold fast_dynamic_cast_ref
    have hno := throw_not_mem_trace cfg rt s ref
    by_cases h : (fast_dynamic_cast cfg rt s ref).value = 0 <;> simp [h, hno]
  · intro href hcold hok
    have hmiss : ¬ (s.offset ≠ DCAST_NO_OFFSET cfg ∧ s.src_vtable_ptr = get_vtable rt ref) := by
      rintro ⟨hpop, htok⟩
      rcases hcold with hempty | hne
      · exact hpop hempty
      · exact hne htok
    rw [hv, fast_dynamic_cast_miss_found cfg rt s ref href hmiss hok]
    exact if_neg hok
  · intro calls hvalid hfaith hok
    rw [outcomes_ref_coherent cfg calls hfaith hvalid calls (Slot.initial cfg)
      (fun _ h => h) (initial_coherent cfg calls)]
    apply List.map_congr_left
    intro c hc
    rw [if_neg (hok c hc)]

/-- The benchmark loop through the reference form never raises. -/
theorem C4_reference_forms_witness :
    (outcomes_ref cfg64 (Slot.initial cfg64) bench_calls).map Outcome.value =
      [Except.ok 4000, Except.ok 4000, Except.ok 4000, Except.ok 4000] :=
  (C4_reference_forms cfg64 demo_rt (Slot.initial cfg64) 4040).2.2.2.2.2.2 bench_calls
    (by decide) (by decide) (by decide)

/-- C5. Fast path: on a Populated slot whose stored token equals the token of
the non-null input object, the pointer form returns the input address plus the
stored offset (pointer arithmetic of the build, the exact sum whenever it is a
pointer value), leaves the slot as it was, and does not invoke the full
conversion: no such action is performed and the outcome is the same whatever
`dynamic_cast` would return. -/
theorem C5_fast_path (cfg : Config) (rt : Runtime) (s : Slot) (ptr : Nat)
    (hptr : ptr ≠ 0) (hpop : s.Populated cfg) (htok : s.src_vtable_ptr = get_vtable rt ptr) :
    (fast_dynamic_cast cfg rt s ptr).value = ptr_add cfg ptr s.offset ∧
    (0 ≤ (ptr : Int) + s.offset → (ptr : Int) + s.offset < (cfg.modulus : Int) →
      ((fast_dynamic_cast cfg rt s ptr).value : Int) = (ptr : Int) + s.offset) ∧
    (fast_dynamic_cast cfg rt s ptr).slot = s ∧
    (∀ q : Nat, Event.full_cast q ∉ (fast_dynamic_cast cfg rt s ptr).trace) ∧
    (∀ dc : Nat → Nat,
      fast_dynamic_cast cfg { load := rt.load, dynamic_cast := dc } s ptr =
        fast_dynamic_cast cfg rt s ptr) := by
  have hstep := fast_dynamic_cast_hit cfg rt s ptr hptr hpop htok
  refine ⟨?_, ?_, ?_, ?_, ?_⟩
  · rw [hstep]
  · intro h0 h1
    rw [hstep]
    exact ptr_add_exact cfg ptr s.offset h0 h1
  · rw [hstep]
  · intro q
    rw [hstep]
    simp
  · intro dc
    rw [hstep]
    exact fast_dynamic_cast_hit cfg { load := rt.load, dynamic_cast := dc } s ptr hptr hpop htok

/-- A warm call on the `G` object returns 4040 - 40 and keeps the slot. -/
theorem C5_fast_path_witness :
    (fast_dynamic_cast cfg64 demo_rt demo_warm 4040).value = 4000 ∧
    (fast_dynamic_cast cfg64 demo_rt demo_warm 4040).slot = demo_warm :=
  have h := C5_fast_path cfg64 demo_rt demo_warm 4040 (by decide) (by decide) (by decide)
  ⟨h.1, h.2.2.1⟩

/-- C6. A successful miss records the entry: on a slot that is Empty or holds
a token different from the object's, when `dynamic_cast` on the non-null
input gives `r` (non-null), the pointer form returns `r` and leaves the slot
holding the object's token and the distance from the input to `r` as the
build computes it, which is exactly `r - input` whenever that is a
`ptrdiff_t`. -/
theorem C6_successful_miss_records (cfg : Config) (rt : Runtime) (s : Slot) (ptr : Nat)
    (hptr : ptr ≠ 0) (hslot : s.Empty cfg ∨ s.src_vtable_ptr ≠ get_vtable rt ptr)
    (hok : rt.dynamic_cast ptr ≠ 0) :
    (fast_dynamic_cast cfg rt s ptr).value = rt.dynamic_cast ptr ∧
    (fast_dynamic_cast cfg rt s ptr).slot =
      { offset := ptr_diff cfg (rt.dynamic_cast ptr) ptr,
        src_vtable_ptr := get_vtable rt ptr } ∧
    (PtrdiffFits cfg ((rt.dynamic_cast ptr : Int) - (ptr : Int)) →
      (fast_dynamic_cast cfg rt s ptr).slot =
        { offset := (rt.dynamic_cast ptr : Int) - (ptr : Int),
          src_vtable_ptr := get_vtable rt ptr }) := by
  have hmiss : ¬ (s.offset ≠ DCAST_NO_OFFSET cfg ∧ s.src_vtable_ptr = get_vtable rt ptr) := by
    rintro ⟨hpop, htok⟩
    rcases hslot with hempty | hne
    · exact hpop hempty
    · exact hne htok
  rw [fast_dynamic_cast_miss_found cfg rt s ptr hptr hmiss hok]
  refine ⟨rfl, rfl, ?_⟩
  intro hfits
  rw [ptr_diff_of_fits cfg _ _ hfits]

/-- The cold call on the `G` object returns 4000 and records (9000, -40). -/
theorem C6_successful_miss_records_witness :
    (fast_dynamic_cast cfg64 demo_rt (Slot.initial cfg64) 4040).value = 4000 ∧
    (fast_dynamic_cast cfg64 demo_rt (Slot.initial cfg64) 4040).slot =
      { offset := -40, src_vtable_ptr := 9000 } :=
  have h := C6_successful_miss_records cfg64 demo_rt (Slot.initial cfg64) 4040
    (by decide) (Or.inl (by decide)) (by decide)
  ⟨h.1, h.2.2 (by decide)⟩

/-- C7. Eviction correctness: after a call on a non-null object `x` whose
full conversion succeeds, a call on a non-null object `y` with a different
token invokes the full conversion on `y` and returns exactly its result,
whatever offset the slot holds; the slot is left as it was when that result
is null, and holds the token and the offset of `y` otherwise. -/
theorem C7_eviction (cfg : Config) (s0 : Slot) (x y : Call)
    (hx : x.ptr ≠ 0) (hxok : x.full ≠ 0) (hy : y.ptr ≠ 0) (htok : y.token ≠ x.token) :
    (fast_dynamic_cast cfg y.rt (fast_dynamic_cast cfg x.rt s0 x.ptr).slot y.ptr).value
      = y.full ∧
    Event.full_cast y.ptr ∈
      (fast_dynamic_cast cfg y.rt (fast_dynamic_cast cfg x.rt s0 x.ptr).slot y.ptr).trace ∧
    (∀ d : Int,
      (fast_dynamic_cast cfg y.rt
        { offset := d,
          src_vtable_ptr := (fast_dynamic_cast cfg x.rt s0 x.ptr).slot.src_vtable_ptr }
        y.ptr).value = y.full) ∧
    (y.full = 0 →
      (fast_dynamic_cast cfg y.rt (fast_dynamic_cast cfg x.rt s0 x.ptr).slot y.ptr).slot
        = (fast_dynamic_cast cfg x.rt s0 x.ptr).slot) ∧
    (y.full ≠ 0 →
      (fast_dynamic_cast cfg y.rt (fast_dynamic_cast cfg x.rt s0 x.ptr).slot y.ptr).slot
        = { offset := ptr_diff cfg y.full y.ptr, src_vtable_ptr := y.token }) := by
  have hs1 := token_after_success cfg x.rt s0 x.ptr hx hxok
  have hmiss : ∀ s : Slot,
      s.src_vtable_ptr = (fast_dynamic_cast cfg x.rt s0 x.ptr).slot.src_vtable_ptr →
      ¬ (s.offset ≠ DCAST_NO_OFFSET cfg ∧ s.src_vtable_ptr = get_vtable y.rt y.ptr) := by
    rintro s hs ⟨_, h⟩
    exact htok (h.symm.trans (hs.trans hs1))
  have hmiss1 := hmiss (fast_dynamic_cast cfg x.rt s0 x.ptr).slot rfl
  by_cases hfail : y.rt.dynamic_cast y.ptr = 0
  · rw [fast_dynamic_cast_miss_null cfg y.rt _ y.ptr hy hmiss1 hfail]
    refine ⟨hfail.symm, by simp, ?_, fun _ => rfl, fun h => absurd hfail h⟩
    intro d
    rw [fast_dynamic_cast_miss_null cfg y.rt ⟨d, _⟩ y.ptr hy (hmiss ⟨d, _⟩ rfl) hfail]
    exact hfail.symm
  · rw [fast_dynamic_cast_miss_found cfg y.rt _ y.ptr hy hmiss1 hfail]
    refine ⟨rfl, by simp, ?_, fun h => absurd h hfail, fun _ => rfl⟩
    intro d
    rw [fast_dynamic_cast_miss_found cfg y.rt ⟨d, _⟩ y.ptr hy (hmiss ⟨d, _⟩ rfl) hfail]
    rfl

/-- After the `G` object, the object of the derived type at 5048 is converted
by the full conversion and its entry replaces the one of `G`. -/
theorem C7_eviction_witness :
    (fast_dynamic_cast cfg64 demo_rt
      (fast_dynamic_cast cfg64 demo_rt (Slot.initial cfg64) 4040).slot 5048).value = 5000 ∧
    (fast_dynamic_cast cfg64 demo_rt
      (fast_dynamic_cast cfg64 demo_rt (Slot.initial cfg64) 4040).slot 5048).slot
        = { offset := -48, src_vtable_ptr := 9500 } :=
  have h := C7_eviction cfg64 (Slot.initial cfg64) { rt := demo_rt, ptr := 4040 }
    { rt := demo_rt, ptr := 5048 } (by decide) (by decide) (by decide) (by decide)
  ⟨h.1, h.2.2.2.2 (by decide)⟩

/-- C8. Idempotence after warm-up: take an object `c` whose full conversion
succeeds with an offset different from the sentinel, on a slot where its
call misses (Empty, or another token), followed by any number of calls on
non-null objects with the same token. The first call invokes the full
conversion and returns its result; every later call is a hit that returns
its input address plus the offset recorded by the first call (the address the
first call returned, when the input address is the same); the slot after all
the calls is the slot after the first. -/
theorem C8_idempotence (cfg : Config) (s0 : Slot) (c : Call) (cs : List Call)
    (hc : c.ptr ≠ 0) (hok : c.full ≠ 0)
    (hsent : ptr_diff cfg c.full c.ptr ≠ DCAST_NO_OFFSET cfg)
    (hcold : s0.Empty cfg ∨ s0.src_vtable_ptr ≠ c.token)
    (hcs : ∀ d ∈ cs, d.ptr ≠ 0 ∧ d.token = c.token) :
    (fast_dynamic_cast cfg c.rt s0 c.ptr).value = c.full ∧
    Event.full_cast c.ptr ∈ (fast_dynamic_cast cfg c.rt s0 c.ptr).trace ∧
    (fast_dynamic_cast cfg c.rt s0 c.ptr).slot =
      { offset := ptr_diff cfg c.full c.ptr, src_vtable_ptr := c.token } ∧
    outcomes cfg (fast_dynamic_cast cfg c.rt s0 c.ptr).slot cs = cs.map (fun d =>
      { value := ptr_add cfg d.ptr (ptr_diff cfg c.full c.ptr),
        slot := (fast_dynamic_cast cfg c.rt s0 c.ptr).slot,
        trace := [Event.read_vtable d.ptr, Event.load_offset,
                  Event.load_src_vtable_ptr, Event.load_offset] }) ∧
    (c.full < cfg.modulus → ∀ d ∈ cs, d.ptr = c.ptr →
      ptr_add cfg d.ptr (ptr_diff cfg c.full c.ptr) = c.full) ∧
    final_slot cfg s0 (c :: cs) = (fast_dynamic_cast cfg c.rt s0 c.ptr).slot := by
  have hmiss : ¬ (s0.offset ≠ DCAST_NO_OFFSET cfg ∧ s0.src_vtable_ptr = get_vtable c.rt c.ptr) := by
    rintro ⟨hpop, htok⟩
    rcases hcold with hempty | hne
    · exact hpop hempty
    · exact hne htok
  have hstep := fast_dynamic_cast_miss_found cfg c.rt s0 c.ptr hc hmiss hok
  have hhits := outcomes_hits cfg
    { offset := ptr_diff cfg c.full c.ptr, src_vtable_ptr := c.token } hsent cs hcs
  refine ⟨?_, ?_, ?_, ?_, ?_, ?_⟩
  · rw [hstep]; rfl
  · rw [hstep]; simp
  · rw [hstep]; rfl
  · rw [hstep]; exact hhits.1
  · intro hlt d _ hd
    rw [hd]
    exact ptr_add_ptr_diff_of_lt cfg c.full c.ptr hlt
  · show final_slot cfg (fast_dynamic_cast cfg c.rt s0 c.ptr).slot cs = _
    rw [hstep]; exact hhits.2

/-- The benchmark loop through the pointer form: four equal results, and the
slot of the first call at the end. -/
theorem C8_idempotence_witness :
    (outcomes cfg64 (Slot.initial cfg64) bench_calls).map Outcome.value
      = [4000, 4000, 4000, 4000] ∧
    final_slot cfg64 (Slot.initial cfg64) bench_calls = demo_warm :=
  have h := C8_idempotence cfg64 (Slot.initial cfg64) { rt := demo_rt, ptr := 4040 }
    (List.replicate 3 { rt := demo_rt, ptr := 4040 })
    (by decide) (by decide) (by decide) (Or.inl (by decide)) (by decide)
  ⟨by
    show _ :: List.map Outcome.value (outcomes cfg64 _ (List.replicate 3 _)) = _
    rw [h.2.2.2.1, h.1]; rfl,
   h.2.2.2.2.2.trans h.2.2.1⟩

/-- C10. The shared-pointer form is a pure wrapper: the returned shared
pointer stores the pointer that the pointer form returns on `p.get()`, the
slot and the actions are those of that call, the result co-owns the control
block of `p` (whose use count goes up by one when `p` owns one, every other
use count being untouched), and `p` itself is left as it was. -/
theorem C10_shared_pointer_wrapper (cfg : Config) (rt : Runtime) (s : Slot)
    (counts : Nat → Nat) (p : shared_ptr) :
    (fast_dynamic_pointer_cast cfg rt s counts p).value.get =
      (fast_dynamic_cast cfg rt s p.get).value ∧
    (fast_dynamic_pointer_cast cfg rt s counts p).slot =
      (fast_dynamic_cast cfg rt s p.get).slot ∧
    (fast_dynamic_pointer_cast cfg rt s counts p).trace =
      (fast_dynamic_cast cfg rt s p.get).trace ∧
    (fast_dynamic_pointer_cast cfg rt s counts p).value.ctrl = p.ctrl ∧
    (p.ctrl ≠ 0 →
      (fast_dynamic_pointer_cast cfg rt s counts p).counts p.ctrl = counts p.ctrl + 1) ∧
    (∀ c : Nat, c ≠ p.ctrl →
      (fast_dynamic_pointer_cast cfg rt s counts p).counts c = counts c) ∧
    (fast_dynamic_pointer_cast cfg rt s counts p).arg = p := by
  refine ⟨rfl, rfl, rfl, rfl, ?_, ?_, rfl⟩
  · intro h
    simp [fast_dynamic_pointer_cast, shared_ptr.aliasing, h]
  · intro c hc
    simp [fast_dynamic_pointer_cast, shared_ptr.aliasing, hc]

/-- The shared pointer to the `G` object is converted to one that stores 4000
and co-owns control block 77, now with two owners. -/
theorem C10_shared_pointer_wrapper_witness :
    (fast_dynamic_pointer_cast cfg64 demo_rt (Slot.initial cfg64) demo_counts
      demo_shared).value = { ctrl := 77, stored := 4000 } ∧
    (fast_dynamic_pointer_cast cfg64 demo_rt (Slot.initial cfg64) demo_counts
      demo_shared).counts 77 = 2 :=
  have h := C10_shared_pointer_wrapper cfg64 demo_rt (Slot.initial cfg64) demo_counts
    demo_shared
  ⟨by
    have h1 := h.1
    have h4 := h.2.2.2.1
    rcases hv : (fast_dynamic_pointer_cast cfg64 demo_rt (Slot.initial cfg64) demo_counts
      demo_shared).value with ⟨c, st⟩
    rw [hv] at h1 h4
    simp only [shared_ptr.get] at h1
    rw [show c = 77 from h4, show st = 4000 from h1],
   h.2.2.2.2.1 (by decide)⟩

/-- C12, as stated, fails in the 32-bit build: for an object whose target
sub-object lies `0x7FFFFFF` bytes after the source sub-object, the successful
full conversion computes and stores an offset equal to `DCAST_NO_OFFSET`, and
the slot still reads as Empty. -/
theorem C12_sentinel_counterexample :
    big_rt.dynamic_cast 4096 ≠ 0 ∧
    SameObject 4096 0x8000000 4096 (big_rt.dynamic_cast 4096) ∧
    (fast_dynamic_cast cfg32 big_rt (Slot.initial cfg32) 4096).value
      = big_rt.dynamic_cast 4096 ∧
    (fast_dynamic_cast cfg32 big_rt (Slot.initial cfg32) 4096).slot.offset
      = (big_rt.dynamic_cast 4096 : Int) - 4096 ∧
    (fast_dynamic_cast cfg32 big_rt (Slot.initial cfg32) 4096).slot.offset
      = DCAST_NO_OFFSET cfg32 ∧
    (fast_dynamic_cast cfg32 big_rt (Slot.initial cfg32) 4096).slot.Empty cfg32 := by
  decide

/-- C12, amended. The offset that a successful full conversion computes and
stores is never the sentinel whenever the complete object that holds the
source and the target sub-object is at most `DCAST_NO_OFFSET` bytes long: the
stored offset is the exact distance and the slot is Populated afterwards. In
the 64-bit build the sentinel is the largest `ptrdiff_t`, so that every
object size that is a `ptrdiff_t` is covered. -/
theorem C12_sentinel_not_offset (cfg : Config) (rt : Runtime) (s : Slot)
    (ptr base size : Nat) (hptr : ptr ≠ 0)
    (hcold : s.Empty cfg ∨ s.src_vtable_ptr ≠ get_vtable rt ptr)
    (hok : rt.dynamic_cast ptr ≠ 0)
    (hobj : SameObject base size ptr (rt.dynamic_cast ptr))
    (hsize : (size : Int) ≤ DCAST_NO_OFFSET cfg) :
    (fast_dynamic_cast cfg rt s ptr).slot.offset = (rt.dynamic_cast ptr : Int) - (ptr : Int) ∧
    (fast_dynamic_cast cfg rt s ptr).slot.offset ≠ DCAST_NO_OFFSET cfg ∧
    (fast_dynamic_cast cfg rt s ptr).slot.Populated cfg ∧
    (∀ n : Int, PtrdiffFits cfg64 n → n ≤ DCAST_NO_OFFSET cfg64) := by
  have hmiss : ¬ (s.offset ≠ DCAST_NO_OFFSET cfg ∧ s.src_vtable_ptr = get_vtable rt ptr) := by
    rintro ⟨hpop, htok⟩
    rcases hcold with hempty | hne
    · exact hpop hempty
    · exact hne htok
  have hne := ptr_diff_ne_sentinel_of_same_object cfg base size ptr _ hobj hsize
  have hfit : PtrdiffFits cfg ((rt.dynamic_cast ptr : Int) - (ptr : Int)) := by
    obtain ⟨h1, h2, h3, h4⟩ := hobj
    have hs := sentinel_fits cfg
    unfold PtrdiffFits at hs ⊢
    constructor <;> omega
  rw [fast_dynamic_cast_miss_found cfg rt s ptr hptr hmiss hok]
  refine ⟨ptr_diff_of_fits cfg _ _ hfit, hne, hne, ?_⟩
  intro n hn
  unfold PtrdiffFits at hn
  simp only [cfg64, Config.modulus, Config.bits, DCAST_NO_OFFSET, if_true] at hn ⊢
  norm_num at hn ⊢
  omega

/-- The `G` object of 64 bytes at 4000: the cold call stores -40, not the
sentinel. -/
theorem C12_sentinel_not_offset_witness :
    (fast_dynamic_cast cfg64 demo_rt (Slot.initial cfg64) 4040).slot.offset = -40 ∧
    (fast_dynamic_cast cfg64 demo_rt (Slot.initial cfg64) 4040).slot.Populated cfg64 :=
  have h := C12_sentinel_not_offset cfg64 demo_rt (Slot.initial cfg64) 4040 4000 64
    (by decide) (Or.inl (by decide)) (by decide) (by decide) (by decide)
  ⟨h.1, h.2.2.1⟩

/-- C13. Identity collision causes silent corruption: when an object `b`
carries the token of an object `a` converted just before at the same slot
(a miss that recorded an offset other than the sentinel) although the full
conversion of `b` fails or has another offset, the call on `b` takes the fast
path: it returns the address of `b` plus the offset of `a`, a non-null pointer
(whenever that sum is a non-null pointer value) that is not the result of the
full conversion, without invoking the full conversion, and the reference form
raises no error. Such a pair exists: two objects with one token whose full
conversions succeed with different offsets. -/
theorem C13_identity_collision :
    (∀ (cfg : Config) (s0 : Slot) (a b : Call), a.ptr ≠ 0 → a.full ≠ 0 →
      ptr_diff cfg a.full a.ptr ≠ DCAST_NO_OFFSET cfg →
      (s0.Empty cfg ∨ s0.src_vtable_ptr ≠ a.token) →
      b.ptr ≠ 0 → b.token = a.token →
      (b.full = 0 ∨ (b.full : Int) - (b.ptr : Int) ≠ ptr_diff cfg a.full a.ptr) →
      0 < (b.ptr : Int) + ptr_diff cfg a.full a.ptr →
      (b.ptr : Int) + ptr_diff cfg a.full a.ptr < (cfg.modulus : Int) →
      (fast_dynamic_cast cfg b.rt (fast_dynamic_cast cfg a.rt s0 a.ptr).slot b.ptr) =
        { value := ptr_add cfg b.ptr (ptr_diff cfg a.full a.ptr),
          slot := (fast_dynamic_cast cfg a.rt s0 a.ptr).slot,
          trace := [Event.read_vtable b.ptr, Event.load_offset, Event.load_src_vtable_ptr,
                    Event.load_offset] } ∧
      ((ptr_add cfg b.ptr (ptr_diff cfg a.full a.ptr) : Nat) : Int)
        = (b.ptr : Int) + ptr_diff cfg a.full a.ptr ∧
      ptr_add cfg b.ptr (ptr_diff cfg a.full a.ptr) ≠ 0 ∧
      ptr_add cfg b.ptr (ptr_diff cfg a.full a.ptr) ≠ b.full ∧
      (fast_dynamic_cast_ref cfg b.rt (fast_dynamic_cast cfg a.rt s0 a.ptr).slot b.ptr).value
        = Except.ok (ptr_add cfg b.ptr (ptr_diff cfg a.full a.ptr))) ∧
    (∃ a b : Call, a.ptr ≠ 0 ∧ b.ptr ≠ 0 ∧ a.token = b.token ∧ a.full ≠ 0 ∧ b.full ≠ 0 ∧
      (b.full : Int) - (b.ptr : Int) ≠ (a.full : Int) - (a.ptr : Int) ∧
      (fast_dynamic_cast cfg64 b.rt
        (fast_dynamic_cast cfg64 a.rt (Slot.initial cfg64) a.ptr).slot b.ptr).value
        = ptr_add cfg64 b.ptr ((a.full : Int) - (a.ptr : Int)) ∧
      (fast_dynamic_cast cfg64 b.rt
        (fast_dynamic_cast cfg64 a.rt (Slot.initial cfg64) a.ptr).slot b.ptr).value ≠ 0 ∧
      (fast_dynamic_cast cfg64 b.rt
        (fast_dynamic_cast cfg64 a.rt (Slot.initial cfg64) a.ptr).slot b.ptr).value ≠ b.full ∧
      (fast_dynamic_cast cfg64 b.rt
        (fast_dynamic_cast cfg64 a.rt (Slot.initial cfg64) a.ptr).slot b.ptr).trace
        = [Event.read_vtable b.ptr, Event.load_offset, Event.load_src_vtable_ptr,
           Event.load_offset] ∧
      (fast_dynamic_cast_ref cfg64 b.rt
        (fast_dynamic_cast cfg64 a.rt (Slot.initial cfg64) a.ptr).slot b.ptr).value
        = Except.ok (ptr_add cfg64 b.ptr ((a.full : Int) - (a.ptr : Int)))) :=
  ⟨fun cfg s0 a b ha haok hasent hcold hb htok hdiff hpos hlt =>
      collision_hit cfg s0 a b ha haok hasent hcold hb htok hdiff hpos hlt,
   ⟨{ rt := collide_rt, ptr := 4040 }, { rt := collide_rt, ptr := 6000 },
    by decide, by decide, by decide, by decide, by decide, by decide, by decide, by decide,
    by decide, by decide, rfl⟩⟩

/-- After the object at 4040, the object at 6000 with the same token is given
6000 - 40 = 5960 although its full conversion gives 5984. -/
theorem C13_identity_collision_witness :
    (fast_dynamic_cast cfg64 collide_rt
      (fast_dynamic_cast cfg64 collide_rt (Slot.initial cfg64) 4040).slot 6000).value = 5960 ∧
    collide_rt.dynamic_cast 6000 = 5984 :=
  have h := C13_identity_collision.1 cfg64 (Slot.initial cfg64)
    { rt := collide_rt, ptr := 4040 } { rt := collide_rt, ptr := 6000 }
    (by decide) (by decide) (by decide) (Or.inl (by decide)) (by decide) (by decide)
    (Or.inr (by decide)) (by decide) (by decide)
  ⟨by rw [h.1]; decide, by decide⟩

/-- C15. Slot state machine: a slot is in exactly one of the two states Empty
(offset equal to the sentinel) and Populated; it starts Empty; a call takes
it out of Empty only by a successful full conversion, whose result it
returns; and when no successful full conversion of a sequence has the
sentinel as offset, a Populated slot is Populated after the sequence,
whatever the calls are. -/
theorem C15_state_machine (cfg : Config) :
    (∀ s : Slot, (s.Empty cfg ∨ s.Populated cfg) ∧ ¬ (s.Empty cfg ∧ s.Populated cfg)) ∧
    (Slot.initial cfg).Empty cfg ∧
    (∀ (rt : Runtime) (s : Slot) (ptr : Nat), s.Empty cfg →
      (fast_dynamic_cast cfg rt s ptr).slot.Populated cfg →
      ptr ≠ 0 ∧ rt.dynamic_cast ptr ≠ 0 ∧
      Event.full_cast ptr ∈ (fast_dynamic_cast cfg rt s ptr).trace ∧
      (fast_dynamic_cast cfg rt s ptr).value = rt.dynamic_cast ptr) ∧
    (∀ (s : Slot) (calls : List Call), s.Populated cfg →
      (∀ c ∈ calls, c.ptr ≠ 0 → c.full ≠ 0 →
        ptr_diff cfg c.full c.ptr ≠ DCAST_NO_OFFSET cfg) →
      (final_slot cfg s calls).Populated cfg) := by
  refine ⟨?_, rfl, ?_, ?_⟩
  · intro s
    unfold Slot.Empty Slot.Populated
    exact ⟨em _, fun h => h.2 h.1⟩
  · intro rt s ptr hempty hpop
    have hmiss : ¬ (s.offset ≠ DCAST_NO_OFFSET cfg ∧ s.src_vtable_ptr = get_vtable rt ptr) :=
      fun h => h.1 hempty
    by_cases hptr : ptr = 0
    · rw [hptr, fast_dynamic_cast_null] at hpop
      exact absurd hempty hpop
    · by_cases hfail : rt.dynamic_cast ptr = 0
      · rw [fast_dynamic_cast_miss_null cfg rt s ptr hptr hmiss hfail] at hpop
        exact absurd hempty hpop
      · rw [fast_dynamic_cast_miss_found cfg rt s ptr hptr hmiss hfail]
        exact ⟨hptr, hfail, by simp, rfl⟩
  · intro s calls hpop hreal
    exact final_slot_populated cfg calls s hpop hreal

/-- The warm slot of the `G` object is Populated after the demonstration
sequence; the cold call on the `G` object is a successful full conversion. -/
theorem C15_state_machine_witness :
    (final_slot cfg64 demo_warm demo_calls).Populated cfg64 ∧
    (fast_dynamic_cast cfg64 demo_rt (Slot.initial cfg64) 4040).value = 4000 :=
  have h := C15_state_machine cfg64
  ⟨h.2.2.2 demo_warm demo_calls (by decide) (by decide),
   (h.2.2.1 demo_rt (Slot.initial cfg64) 4040 (by decide) (by decide)).2.2.2⟩

/-- C16. Capacity one, not LRU: in a sequence of convertible objects in which
no object carries the token of the one before it (as when objects of two
distinct tokens strictly alternate), started on a slot that does not hold the
token of the first object, every call takes the miss path: it invokes the
full conversion, returns its result, and leaves in the slot the token and the
offset of its own object only, so that the entry of the object before is
gone. -/
theorem C16_capacity_one (cfg : Config) (s0 : Slot) (calls : List Call)
    (hconv : ∀ c ∈ calls, c.ptr ≠ 0 ∧ c.full ≠ 0)
    (halt : List.Chain' (fun a b : Call => b.token ≠ a.token) calls)
    (hstart : ∀ c ∈ calls.head?, s0.Empty cfg ∨ s0.src_vtable_ptr ≠ c.token) :
    List.Forall₂ (fun (c : Call) (o : Outcome Nat) =>
        o.value = c.full ∧ Event.full_cast c.ptr ∈ o.trace ∧
        o.slot = { offset := ptr_diff cfg c.full c.ptr, src_vtable_ptr := c.token })
      calls (outcomes cfg s0 calls) :=
  outcomes_all_miss cfg calls s0 hconv halt hstart

/-- Four alternating calls from the Empty slot: each one invokes the full
conversion and leaves the entry of its own object. -/
theorem C16_capacity_one_witness :
    List.Forall₂ (fun (c : Call) (o : Outcome Nat) =>
        o.value = c.full ∧ Event.full_cast c.ptr ∈ o.trace ∧
        o.slot = { offset := ptr_diff cfg64 c.full c.ptr, src_vtable_ptr := c.token })
      alt_calls (outcomes cfg64 (Slot.initial cfg64) alt_calls) ∧
    (outcomes cfg64 (Slot.initial cfg64) alt_calls).map Outcome.slot =
      [{ offset := -40, src_vtable_ptr := 9000 }, { offset := -48, src_vtable_ptr := 9500 },
       { offset := -40, src_vtable_ptr := 9000 }, { offset := -48, src_vtable_ptr := 9500 }] :=
  ⟨C16_capacity_one cfg64 (Slot.initial cfg64) alt_calls (by decide)
    (List.chain'_cons.mpr ⟨by decide, List.chain'_cons.mpr ⟨by decide,
      List.chain'_cons.mpr ⟨by decide, List.chain'_singleton _⟩⟩⟩)
    (by decide), by decide⟩

/-- C17. Cache coherence invariant: when the identity token is a one-to-one
proxy for the concrete type over a collection of objects, every slot reached
from the Empty slot by pointer-form calls on objects of the collection
satisfies: if it is Populated, then for every object of the collection that
carries the stored token the full conversion succeeds, and its result address
minus its input address is the stored offset (as the build computes the
distance, and exactly whenever the distance is a `ptrdiff_t`). -/
theorem C17_coherence (cfg : Config) (all calls : List Call)
    (hfaith : TokenFaithful all) (hvalid : ∀ c ∈ all, c.Valid cfg)
    (hsub : ∀ c ∈ calls, c ∈ all)
    (hpop : (final_slot cfg (Slot.initial cfg) calls).Populated cfg) :
    ∀ b ∈ all, b.ptr ≠ 0 →
      b.token = (final_slot cfg (Slot.initial cfg) calls).src_vtable_ptr →
      b.full ≠ 0 ∧
      ptr_diff cfg b.full b.ptr = (final_slot cfg (Slot.initial cfg) calls).offset ∧
      (PtrdiffFits cfg ((b.full : Int) - (b.ptr : Int)) →
        (b.full : Int) - (b.ptr : Int) = (final_slot cfg (Slot.initial cfg) calls).offset) := by
  intro b hb hbptr hbtok
  have hcoh := final_slot_coherent cfg all hfaith hvalid calls (Slot.initial cfg) hsub
    (initial_coherent cfg all)
  obtain ⟨a, ha, haptr, hafull, hatok, haoff⟩ := hcoh hpop
  have hab := hfaith a ha b hb haptr hbptr (hatok.trans hbtok.symm)
  have hbfull : b.full ≠ 0 := fun h => hafull (hab.1.mpr h)
  have hoff : ptr_diff cfg b.full b.ptr = (final_slot cfg (Slot.initial cfg) calls).offset := by
    rw [haoff]
    exact (ptr_diff_congr cfg _ _ _ _ (hab.2 hafull hbfull)).symm
  refine ⟨hbfull, hoff, ?_⟩
  intro hfit
  rw [← hoff, ptr_diff_of_fits cfg _ _ hfit]

/-- After the demonstration sequence the slot holds (9000, -40), and the `G`
object, which carries token 9000, converts with offset 4000 - 4040. -/
theorem C17_coherence_witness :
    final_slot cfg64 (Slot.initial cfg64) demo_calls = { offset := -40, src_vtable_ptr := 9000 } ∧
    demo_rt.dynamic_cast 4040 ≠ 0 ∧
    ((demo_rt.dynamic_cast 4040 : Nat) : Int) - 4040 = -40 :=
  have h := C17_coherence cfg64 demo_calls demo_calls (by decide) (by decide)
    (fun _ hc => hc) (by decide) { rt := demo_rt, ptr := 4040 } (List.mem_cons_self _ _)
    (by decide) (by decide)
  ⟨by decide, h.1, by decide⟩

/-- C18. A real offset equal to the sentinel costs speed, not correctness:
when the full conversion of an object succeeds with result address minus
input address equal to `DCAST_NO_OFFSET`, a call that misses returns the
result of the full conversion and leaves the slot Empty; every later call on
a non-null object with that token (whose conversion, when it succeeds, has
that same offset) invokes the full conversion, returns its result and leaves
the slot Empty; and no call at all takes the fast path on a slot whose offset
is the sentinel. -/
theorem C18_sentinel_offset_costs_speed (cfg : Config) (s0 : Slot) (c : Call)
    (cs : List Call) (hc : c.ptr ≠ 0) (hok : c.full ≠ 0)
    (hsent : (c.full : Int) - (c.ptr : Int) = DCAST_NO_OFFSET cfg)
    (hcold : s0.Empty cfg ∨ s0.src_vtable_ptr ≠ c.token)
    (hcs : ∀ d ∈ cs, d.ptr ≠ 0 ∧ d.token = c.token ∧
      (d.full ≠ 0 → (d.full : Int) - (d.ptr : Int) = DCAST_NO_OFFSET cfg)) :
    (fast_dynamic_cast cfg c.rt s0 c.ptr).value = c.full ∧
    Event.full_cast c.ptr ∈ (fast_dynamic_cast cfg c.rt s0 c.ptr).trace ∧
    (fast_dynamic_cast cfg c.rt s0 c.ptr).slot.Empty cfg ∧
    List.Forall₂ (fun (d : Call) (o : Outcome Nat) =>
        o.value = d.full ∧ Event.full_cast d.ptr ∈ o.trace ∧ o.slot.Empty cfg)
      cs (outcomes cfg (fast_dynamic_cast cfg c.rt s0 c.ptr).slot cs) ∧
    (∀ (rt : Runtime) (s : Slot) (p : Nat), s.offset = DCAST_NO_OFFSET cfg → p ≠ 0 →
      Event.full_cast p ∈ (fast_dynamic_cast cfg rt s p).trace ∧
      (fast_dynamic_cast cfg rt s p).value = rt.dynamic_cast p) := by
  have hwrap : ∀ d : Call, (d.full : Int) - (d.ptr : Int) = DCAST_NO_OFFSET cfg →
      ptr_diff cfg d.full d.ptr = DCAST_NO_OFFSET cfg := by
    intro d hd
    rw [ptr_diff_of_fits cfg _ _ (hd ▸ sentinel_fits cfg), hd]
  have hmiss : ¬ (s0.offset ≠ DCAST_NO_OFFSET cfg ∧ s0.src_vtable_ptr = get_vtable c.rt c.ptr) := by
    rintro ⟨hpop, htok⟩
    rcases hcold with hempty | hne
    · exact hpop hempty
    · exact hne htok
  have hstep := fast_dynamic_cast_miss_found cfg c.rt s0 c.ptr hc hmiss hok
  have hempty1 : (fast_dynamic_cast cfg c.rt s0 c.ptr).slot.offset = DCAST_NO_OFFSET cfg := by
    rw [hstep]; exact hwrap c hsent
  refine ⟨by rw [hstep]; rfl, by rw [hstep]; simp, hempty1, ?_, ?_⟩
  · exact outcomes_sentinel cfg cs _ hempty1
      (fun d hd => ⟨(hcs d hd).1, fun h => hwrap d ((hcs d hd).2.2 h)⟩)
  · intro rt s p hs hp
    have hm : ¬ (s.offset ≠ DCAST_NO_OFFSET cfg ∧ s.src_vtable_ptr = get_vtable rt p) :=
      fun hh => hh.1 hs
    by_cases hfail : rt.dynamic_cast p = 0
    · rw [fast_dynamic_cast_miss_null cfg rt s p hp hm hfail]
      exact ⟨by simp, hfail.symm⟩
    · rw [fast_dynamic_cast_miss_found cfg rt s p hp hm hfail]
      exact ⟨by simp, rfl⟩

/-- In the 32-bit build the object of `big_rt` has the sentinel as offset: it
is converted correctly every time and the slot never leaves Empty. -/
theorem C18_sentinel_offset_costs_speed_witness :
    (outcomes cfg32 (Slot.initial cfg32) big_calls).map Outcome.value
      = [134221823, 134221823, 134221823] ∧
    (fast_dynamic_cast cfg32 big_rt (Slot.initial cfg32) 4096).slot.Empty cfg32 :=
  have h := C18_sentinel_offset_costs_speed cfg32 (Slot.initial cfg32)
    { rt := big_rt, ptr := 4096 } (List.replicate 2 { rt := big_rt, ptr := 4096 })
    (by decide) (by decide) (by decide) (Or.inl (by decide)) (by decide)
  ⟨by decide, h.2.2.1⟩

/-- C19. Shared-pointer form on failure: for a shared pointer `p` that owns a
control block, when the pointer form returns null on `p.get()`, the result
stores a null pointer and still co-owns the control block of `p`, its use
count being the previous use count of `p` plus one; it is not the empty
shared pointer, which is what `std::dynamic_pointer_cast` returns (leaving
the use counts alone) when `dynamic_cast` fails. -/
theorem C19_shared_pointer_failure (cfg : Config) (rt : Runtime) (s : Slot)
    (counts : Nat → Nat) (p : shared_ptr) (hp : p.ctrl ≠ 0)
    (hnull : (fast_dynamic_cast cfg rt s p.get).value = 0) :
    (fast_dynamic_pointer_cast cfg rt s counts p).value.get = 0 ∧
    (fast_dynamic_pointer_cast cfg rt s counts p).value.ctrl = p.ctrl ∧
    shared_ptr.use_count (fast_dynamic_pointer_cast cfg rt s counts p).counts
        (fast_dynamic_pointer_cast cfg rt s counts p).value
      = shared_ptr.use_count counts p + 1 ∧
    (fast_dynamic_pointer_cast cfg rt s counts p).value ≠ shared_ptr.empty ∧
    (rt.dynamic_cast p.get = 0 →
      (dynamic_pointer_cast rt counts p).1 = shared_ptr.empty ∧
      (dynamic_pointer_cast rt counts p).2 = counts ∧
      (fast_dynamic_pointer_cast cfg rt s counts p).value ≠ (dynamic_pointer_cast rt counts p).1) := by
  have hval : (fast_dynamic_pointer_cast cfg rt s counts p).value =
      { ctrl := p.ctrl, stored := 0 } := by
    simp [fast_dynamic_pointer_cast, shared_ptr.aliasing, hnull]
  have hne : ({ ctrl := p.ctrl, stored := 0 } : shared_ptr) ≠ shared_ptr.empty := by
    intro h
    exact hp (congrArg shared_ptr.ctrl h)
  refine ⟨by rw [hval]; rfl, by rw [hval], ?_, by rw [hval]; exact hne, ?_⟩
  · rw [hval]
    simp [shared_ptr.use_count, fast_dynamic_pointer_cast, shared_ptr.aliasing, hp]
  · intro hfail
    have hstd : dynamic_pointer_cast rt counts p = (shared_ptr.empty, counts) := by
      simp [dynamic_pointer_cast, hfail]
    rw [hstd, hval]
    exact ⟨rfl, rfl, hne⟩

/-- A shared pointer that owns the unrelated object at 1000 through control
block 78, which has one owner: the fast form returns a null pointer that is
a second owner, the standard form the empty shared pointer. -/
theorem C19_shared_pointer_failure_witness :
    (fast_dynamic_pointer_cast cfg64 demo_rt (Slot.initial cfg64)
      (fun c => if c = 78 then 1 else 0) { ctrl := 78, stored := 1000 }).value
        = { ctrl := 78, stored := 0 } ∧
    shared_ptr.use_count
      (fast_dynamic_pointer_cast cfg64 demo_rt (Slot.initial cfg64)
        (fun c => if c = 78 then 1 else 0) { ctrl := 78, stored := 1000 }).counts
      (fast_dynamic_pointer_cast cfg64 demo_rt (Slot.initial cfg64)
        (fun c => if c = 78 then 1 else 0) { ctrl := 78, stored := 1000 }).value = 2 ∧
    (dynamic_pointer_cast demo_rt (fun c => if c = 78 then 1 else 0)
      { ctrl := 78, stored := 1000 }).1 = shared_ptr.empty :=
  have h := C19_shared_pointer_failure cfg64 demo_rt (Slot.initial cfg64)
    (fun c => if c = 78 then 1 else 0) { ctrl := 78, stored := 1000 }
    (by decide) (by decide)
  ⟨by decide, h.2.2.1, (h.2.2.2.2 (by decide)).1⟩

end fast_dcast
